import Mathlib

/-!
Verification of the mcrouter admin/routing core against its specification.

This file is a shallow embedding of the two source files of the repository:
* `src/mcrouter/routes/ModifyKeyRoute.h` (the key-rewriting routing node), and
* `src/mcrouter/ServiceInfo.cpp` (the admin command dispatcher, the recording
  `route` command pipeline and the `route_handles` tree dump).

C++ `std::string` / `folly::StringPiece` values are modelled as lists of
characters (`Str`), C++ exceptions as `Except` error values (the C++
`try`/`catch` in `ServiceInfo::handleRequest` becomes a `match` on the
`Except`), and the background-task scheduling of the `route` command as an
explicit `DispatchResult.scheduledRoute` value.  All embedded functions are
total, so "no exception unwinds to the caller" corresponds to plain
function-ness of the embedding.
-/

/-- Character-list model of C++ strings. -/
abbrev Str := List Char

instance {ε α : Type} [DecidableEq ε] [DecidableEq α] : DecidableEq (Except ε α) := fun x y =>
  match x, y with
  | Except.ok a, Except.ok b =>
    if h : a = b then isTrue (by rw [h]) else isFalse (fun hc => by cases hc; exact h rfl)
  | Except.ok _, Except.error _ => isFalse (fun hc => by cases hc)
  | Except.error _, Except.ok _ => isFalse (fun hc => by cases hc)
  | Except.error e, Except.error f =>
    if h : e = f then isTrue (by rw [h]) else isFalse (fun hc => by cases hc; exact h rfl)

/-- Modelled from the spec: the split of a request key into its routing-prefix
part and the unprefixed key (`McRequest::routingPrefix` / `keyWithoutRoute`,
implemented in the mcrouter request library, which is not under `src/`).
Per the spec, the routing prefix is "a string segment of a key that encodes
routing metadata": a key of the shape `/region/cluster/rest` carries the
routing prefix `/region/cluster/`, any other key carries none. -/
def keyParts (key : Str) : Str × Str :=
  match key.splitOn '/' with
  | [] :: a :: b :: r :: rest =>
    ('/' :: a ++ '/' :: b ++ ['/'], List.intercalate ['/'] (r :: rest))
  | _ => ([], key)

/-- A request as seen by `ModifyKeyRoute::route`: only its routing prefix and
its unprefixed key are consulted. -/
structure McRequest : Type where
  routingPrefix : Str
  keyWithoutRoute : Str
deriving DecidableEq

/-- Build the request corresponding to a full key string. -/
def mkRequest (key : Str) : McRequest :=
  { routingPrefix := (keyParts key).1, keyWithoutRoute := (keyParts key).2 }

/-- Modelled from the spec: `mc_client_req_key_check` (mcrouter/lib/mc, not
under `src/`), the key-syntax validator the spec refers to as "key-syntax
rules".  A key is valid (`none`) iff it is nonempty, no longer than 250
characters and free of spaces and control characters; otherwise the result
carries the human-readable error text (`mc_req_err_to_string`). -/
def mc_client_req_key_check (key : Str) : Option Str :=
  if key = [] then some ("missing key".toList)
  else if 250 < key.length then some ("key too long".toList)
  else if key.any (fun c => c = ' ' || c.toNat < 32 || c.toNat = 127) then
    some ("invalid key characters".toList)
  else none

/-- Outcome of one `ModifyKeyRoute::route` call, as observed at the node
boundary: delegate to `target_` with a rewritten key (`routeReqWithKey`
succeeded), delegate the request unchanged, or return an error reply without
touching the child. -/
inductive RouteAction : Type where
  | delegateWithKey (key : Str)
  | delegateUnchanged
  | errorReply (msg : Str)
deriving DecidableEq

/-- `ModifyKeyRoute::routeReqWithKey` (ModifyKeyRoute.h, lines 107-120):
check the rewritten key; on failure return an `ErrorReply` value with message
`ModifyKeyRoute: invalid key: ` + error text, otherwise clone the request,
set the new key and delegate to `target_`. -/
def routeReqWithKey (key : Str) : RouteAction :=
  match mc_client_req_key_check key with
  | some err => RouteAction.errorReply ("ModifyKeyRoute: invalid key: ".toList ++ err)
  | none => RouteAction.delegateWithKey key

/-- The `rp` binding of `ModifyKeyRoute::route` (lines 88-90): the configured
override if present, else the routing prefix of the request. -/
def effectiveRp (routingPrefix_ : Option Str) (req : McRequest) : Str :=
  match routingPrefix_ with
  | some v => v
  | none => req.routingPrefix

/-- `ModifyKeyRoute::route` (ModifyKeyRoute.h, lines 85-100).
`routingPrefix_` is the optional `set_routing_prefix` override and
`keyPrefix_` the `ensure_key_prefix` string of the node. -/
def modifyKeyRoute (routingPrefix_ : Option Str) (keyPrefix_ : Str) (req : McRequest) :
    RouteAction :=
  let rp := effectiveRp routingPrefix_ req
  if keyPrefix_.isPrefixOf req.keyWithoutRoute = false then
    routeReqWithKey (rp ++ keyPrefix_ ++ req.keyWithoutRoute)
  else if routingPrefix_.isSome = true ∧ rp ≠ req.routingPrefix then
    routeReqWithKey (rp ++ req.keyWithoutRoute)
  else
    RouteAction.delegateUnchanged

/-- `ModifyKeyRoute::couldRouteTo` (lines 79-83): always the singleton list
holding `target_`, for every request and operation. -/
def couldRouteTo {α : Type} (target_ : α) (_req : McRequest) : List α :=
  [target_]

/-- The children a given `route` outcome engages: both delegation outcomes
invoke `target_->route(...)`, the error-reply outcome invokes no child. -/
def engagedChildren {α : Type} (target_ : α) : RouteAction → List α
  | RouteAction.errorReply _ => []
  | _ => [target_]

/-- Whether a `route` outcome is the local error reply. -/
def isErrorReply : RouteAction → Bool
  | RouteAction.errorReply _ => true
  | _ => false

/-- Admin pseudo-key parsing in `ServiceInfo::handleRequest` (ServiceInfo.cpp,
lines 332-347): if the key contains a `(` and its last character is `)`, the
command name is everything before the first `(` and the arguments are the
comma-split of what stands between; otherwise the whole key is the command
name and the argument list is empty (the split is skipped when the argument
substring is empty). -/
def parseAdminKey (key : Str) : Str × List Str :=
  let cmd := key.takeWhile (fun c => c != '(')
  let rest := key.dropWhile (fun c => c != '(')
  if rest ≠ [] ∧ key.getLast? = some ')' then
    let argsStr := rest.tail.dropLast
    (cmd, if argsStr = [] then [] else argsStr.splitOn ',')
  else
    (key, [])

/-- Trailing-newline strip in `ServiceInfo::handleRequest` (lines 362-364):
`if (!replyStr.empty() && replyStr.back() == newline) replyStr =
replyStr.substr(0, replyStr.size() - 1)`. -/
def stripTrailingNewline (s : Str) : Str :=
  if s.getLast? = some '\n' then s.dropLast else s

/-- The reply-body aggregation of the `route` command continuation
(ServiceInfo.cpp, lines 96-109): starting from the empty string, for each
destination push `\r\n` first unless the accumulator is still empty, then
append the destination. -/
def joinDestinations (destinations : List Str) : Str :=
  destinations.foldl (fun s d => (if s = [] then s else s ++ ['\r', '\n']) ++ d) []

/-- A routing-handle tree as traversed by `dumpTree`: each node contributes
its `routeName()` and the ordered `couldRouteTo` children for the request and
operation of the dump. -/
inductive RTree : Type where
  | node (name : Str) (children : List RTree)

mutual

/-- `dumpTree` (ServiceInfo.cpp, lines 114-125): append `level` spaces, the
route name and a newline to the accumulator, then recurse into the
`couldRouteTo` children at `level + 1`. -/
def dumpTree (tree : Str) (level : Nat) : RTree → Str
  | RTree.node name children =>
    dumpList (tree ++ List.replicate level ' ' ++ name ++ ['\n']) (level + 1) children

/-- The `for (auto target : targets)` loop of `dumpTree`. -/
def dumpList (tree : Str) (level : Nat) : List RTree → Str
  | [] => tree
  | t :: ts => dumpList (dumpTree tree level t) level ts

end

mutual

/-- Depth-first pre-order of a tree with the depth of every node: the root
first, then the full subtree of each child in order. -/
def preorder (level : Nat) : RTree → List (Nat × Str)
  | RTree.node name children => (level, name) :: preorderList (level + 1) children

/-- Pre-order of a forest, in order. -/
def preorderList (level : Nat) : List RTree → List (Nat × Str)
  | [] => []
  | t :: ts => preorder level t ++ preorderList level ts

end

/-- One dump line: one space per depth level, the node name, a newline. -/
def dumpLine (p : Nat × Str) : Str :=
  List.replicate p.1 ' ' ++ p.2 ++ ['\n']

/-- The dump text the spec describes: one `dumpLine` per node, in depth-first
pre-order starting at level 0. -/
def renderDump (tree : RTree) : Str :=
  ((preorder 0 tree).map dumpLine).flatten

/-- `routeHandlesCommandHelper` (ServiceInfo.cpp, lines 128-152): walk the
compile-time `McOpList` (modelled as the list of operation names `ops`),
dump the tree for the first matching name, and fail with
`route_handles: unknown op ` + op from the `Item<0>` base case. -/
def routeHandlesCommandHelper (ops : List Str) (op : Str) (tree : RTree) : Except Str Str :=
  match ops with
  | [] => Except.error ("route_handles: unknown op ".toList ++ op)
  | o :: rest =>
    if op = o then Except.ok (dumpTree [] 0 tree)
    else routeHandlesCommandHelper rest op tree

/-- The `route_handles` entry placed into `commands_` by the
`ServiceInfoImpl` constructor (ServiceInfo.cpp, lines 264-277): check the
two-argument arity, then run `routeHandlesCommandHelper` synchronously.
`tree` stands for the `couldRouteTo` unfolding of `proxyRoute_` for the
recording request built from the key argument. -/
def routeHandlesTableEntry (ops : List Str) (tree : RTree) (args : List Str) :
    Except Str Str :=
  match args with
  | [op, _key] => routeHandlesCommandHelper ops op tree
  | _ => Except.error ("route_handles: 2 args expected".toList)

/-- The `commands_` table built by the `ServiceInfoImpl` constructor
(ServiceInfo.cpp, lines 189-317).  The entries `version`, `config`,
`config_age`, `config_file`, `options`, `config_md5_digest`,
`config_sources_info`, `preprocessed_config` and `hostid` read external
collaborators (router options, stats, config API) that are outside `src/`
and are abstracted by `ext`; `route_handles` is the concrete entry embedded
above.  `route` is deliberately absent from the table (comment at lines
256-262): it is special-cased in `handleRequest`. -/
def serviceCommands (ext : Str → Option (List Str → Except Str Str))
    (ops : List Str) (tree : RTree) : Str → Option (List Str → Except Str Str) :=
  fun cmd =>
    if cmd = "route_handles".toList then some (routeHandlesTableEntry ops tree)
    else ext cmd

/-- What `ServiceInfo::handleRequest` does with one admin request: either it
sends a reply string synchronously, or (for the `route` command with a known
operation) it returns early after scheduling the recording walk on the fiber
manager, the reply being sent later by the continuation of that task. -/
inductive DispatchResult : Type where
  | reply (s : Str)
  | scheduledRoute (op key : Str)
deriving DecidableEq

/-- `ServiceInfo::ServiceInfoImpl::routeCommandHelper` (ServiceInfo.cpp,
lines 154-178): walk the `McOpList` names; on the first match schedule the
recording walk (`handleRouteCommandForOp`, lines 69-111), and from the
`Item<0>` base case throw `route: unknown op ` + op. -/
def routeCommandHelper (ops : List Str) (op key : Str) : Except Str DispatchResult :=
  match ops with
  | [] => Except.error ("route: unknown op ".toList ++ op)
  | o :: rest =>
    if op = o then Except.ok (DispatchResult.scheduledRoute op key)
    else routeCommandHelper rest op key

/-- `ServiceInfo::ServiceInfoImpl::handleRouteCommand` (ServiceInfo.cpp,
lines 319-330): demand exactly two arguments, then resolve the operation. -/
def handleRouteCommand (ops : List Str) (args : List Str) : Except Str DispatchResult :=
  match args with
  | [op, key] => routeCommandHelper ops op key
  | _ => Except.error ("route: 2 args expected".toList)

/-- `ServiceInfo::handleRequest` (ServiceInfo.cpp, lines 332-371): parse the
admin key, special-case `route`, otherwise look the command up in the table,
run it and strip one trailing newline on success; any failure raised inside
the `try` block is caught and turned into an `ERROR: ` + message reply. -/
def handleRequest (commands : Str → Option (List Str → Except Str Str))
    (ops : List Str) (key : Str) : DispatchResult :=
  let cmd := (parseAdminKey key).1
  let args := (parseAdminKey key).2
  let result : Except Str DispatchResult :=
    if cmd = "route".toList then
      handleRouteCommand ops args
    else
      match commands cmd with
      | none => Except.error ("unknown command: ".toList ++ cmd)
      | some f =>
        match f args with
        | Except.ok s => Except.ok (DispatchResult.reply (stripTrailingNewline s))
        | Except.error e => Except.error e
  match result with
  | Except.ok d => d
  | Except.error e => DispatchResult.reply ("ERROR: ".toList ++ e)

/-- Command table used to exercise the error path of the dispatcher: one
command that always fails. -/
def svcTableC3 : Str → Option (List Str → Except Str Str) :=
  fun c => if c = "boom".toList then some (fun _ => Except.error ("kaboom".toList)) else none

/-- Command table used to exercise the success path of the dispatcher: one
command that returns a string with a trailing newline. -/
def svcTableC7 : Str → Option (List Str → Except Str Str) :=
  fun c => if c = "ver".toList then some (fun _ => Except.ok ("1.0\n".toList)) else none

theorem routeCommandHelper_of_not_mem (ops : List Str) (op k : Str) (h : op ∉ ops) :
    routeCommandHelper ops op k = Except.error ("route: unknown op ".toList ++ op) := by
  induction ops with
  | nil => rfl
  | cons o rest ih =>
    simp only [List.mem_cons, not_or] at h
    rw [routeCommandHelper, if_neg h.1, ih h.2]

theorem routeCommandHelper_of_mem (ops : List Str) (op k : Str) (h : op ∈ ops) :
    routeCommandHelper ops op k = Except.ok (DispatchResult.scheduledRoute op k) := by
  induction ops with
  | nil => cases h
  | cons o rest ih =>
    by_cases ho : op = o
    · rw [routeCommandHelper, if_pos ho]
    · rw [routeCommandHelper, if_neg ho]
      exact ih ((List.mem_cons.mp h).resolve_left ho)

theorem routeHandlesCommandHelper_of_not_mem (ops : List Str) (op : Str) (tree : RTree)
    (h : op ∉ ops) :
    routeHandlesCommandHelper ops op tree =
      Except.error ("route_handles: unknown op ".toList ++ op) := by
  induction ops with
  | nil => rfl
  | cons o rest ih =>
    simp only [List.mem_cons, not_or] at h
    rw [routeHandlesCommandHelper, if_neg h.1, ih h.2]

theorem routeHandlesCommandHelper_of_mem (ops : List Str) (op : Str) (tree : RTree)
    (h : op ∈ ops) :
    routeHandlesCommandHelper ops op tree = Except.ok (dumpTree [] 0 tree) := by
  induction ops with
  | nil => cases h
  | cons o rest ih =>
    by_cases ho : op = o
    · rw [routeHandlesCommandHelper, if_pos ho]
    · rw [routeHandlesCommandHelper, if_neg ho]
      exact ih ((List.mem_cons.mp h).resolve_left ho)

mutual

theorem dumpTree_renders (t : RTree) (acc : Str) (level : Nat) :
    dumpTree acc level t = acc ++ ((preorder level t).map dumpLine).flatten := by
  cases t with
  | node name children =>
    rw [dumpTree, preorder, dumpList_renders]
    simp [dumpLine, List.append_assoc]

theorem dumpList_renders (ts : List RTree) (acc : Str) (level : Nat) :
    dumpList acc level ts = acc ++ ((preorderList level ts).map dumpLine).flatten := by
  cases ts with
  | nil => simp [dumpList, preorderList]
  | cons t ts =>
    rw [dumpList, preorderList, dumpTree_renders t acc level, dumpList_renders ts]
    simp [List.append_assoc]

end

/-- C1: for a KeyRewriteNode configured with `ensure_key_prefix = "foo"` and
`set_routing_prefix = "/a/b/"`, `route` follows the specified rewrite order:
with `rp` the configured override, a request whose unprefixed key does not
start with `foo` has its key rewritten to `rp + "foo" + keyWithoutRoute` and
is delegated to the target (whenever the rewritten key passes validation);
in particular key `/a/b/a` is rewritten to `/a/b/fooa`, key `foo` to
`/a/b/foo` and key `/b/c/o` to `/a/b/fooo`. -/
theorem modifyKeyRoute_rewrite_order :
    (∀ req : McRequest, ("foo".toList.isPrefixOf req.keyWithoutRoute) = false →
      mc_client_req_key_check ("/a/b/".toList ++ "foo".toList ++ req.keyWithoutRoute) = none →
      modifyKeyRoute (some ("/a/b/".toList)) ("foo".toList) req =
        RouteAction.delegateWithKey ("/a/b/".toList ++ "foo".toList ++ req.keyWithoutRoute)) ∧
    modifyKeyRoute (some ("/a/b/".toList)) ("foo".toList) (mkRequest ("/a/b/a".toList)) =
      RouteAction.delegateWithKey ("/a/b/fooa".toList) ∧
    modifyKeyRoute (some ("/a/b/".toList)) ("foo".toList) (mkRequest ("foo".toList)) =
      RouteAction.delegateWithKey ("/a/b/foo".toList) ∧
    modifyKeyRoute (some ("/a/b/".toList)) ("foo".toList) (mkRequest ("/b/c/o".toList)) =
      RouteAction.delegateWithKey ("/a/b/fooo".toList) := by
  refine ⟨?_, by decide, by decide, by decide⟩
  intro req h hv
  simp only [modifyKeyRoute, effectiveRp]
  rw [if_pos h]
  simp only [routeReqWithKey]
  rw [hv]

/-- C1 witness: the general rewrite branch of `modifyKeyRoute_rewrite_order`
evaluated at the concrete request with key `/x/y/bar`. -/
theorem modifyKeyRoute_rewrite_order_witness :
    modifyKeyRoute (some ("/a/b/".toList)) ("foo".toList) (mkRequest ("/x/y/bar".toList)) =
      RouteAction.delegateWithKey ("/a/b/foobar".toList) := by
  have h := modifyKeyRoute_rewrite_order.1 (mkRequest ("/x/y/bar".toList)) (by decide) (by decide)
  exact h.trans (by decide)

/-- C2 counterexample: the claim says `couldRouteTo` is exactly the set of
children the same `route` call delegates to, independent of branch.  For the
node `ensure_key_prefix = "foo"`, `set_routing_prefix = "/a/b/"` and a
request with empty routing prefix and unprefixed key `" "`, the rewritten
key `/a/b/foo ` fails key validation, so `route` returns the local error
reply and engages no child, while `couldRouteTo` still returns the
singleton: the two differ. -/
theorem couldRouteTo_route_consistency_cex :
    couldRouteTo (0 : Nat) (McRequest.mk [] (" ".toList)) = [0] ∧
    modifyKeyRoute (some ("/a/b/".toList)) ("foo".toList) (McRequest.mk [] (" ".toList)) =
      RouteAction.errorReply ("ModifyKeyRoute: invalid key: invalid key characters".toList) ∧
    engagedChildren (0 : Nat)
        (modifyKeyRoute (some ("/a/b/".toList)) ("foo".toList) (McRequest.mk [] (" ".toList))) ≠
      couldRouteTo (0 : Nat) (McRequest.mk [] (" ".toList)) := by
  decide

/-- C2 amended: `couldRouteTo` always returns exactly the singleton
`[target]`, for every request and configuration; and it is exactly the set
of children `route` engages on every branch on which the (possibly
rewritten) request reaches the child — whenever `route` does not return the
local invalid-key error reply.  On the error-reply branch `route` engages no
child. -/
theorem couldRouteTo_route_consistency_amended {α : Type} (target_ : α)
    (rpOpt : Option Str) (kp : Str) (req : McRequest) :
    couldRouteTo target_ req = [target_] ∧
    (isErrorReply (modifyKeyRoute rpOpt kp req) = false →
      engagedChildren target_ (modifyKeyRoute rpOpt kp req) = couldRouteTo target_ req) ∧
    (isErrorReply (modifyKeyRoute rpOpt kp req) = true →
      engagedChildren target_ (modifyKeyRoute rpOpt kp req) = []) := by
  refine ⟨rfl, ?_, ?_⟩ <;>
    cases modifyKeyRoute rpOpt kp req <;>
      simp [isErrorReply, engagedChildren, couldRouteTo]

/-- C2 amended witness: the consistent branch evaluated at the request with
key `/a/b/a`. -/
theorem couldRouteTo_route_consistency_amended_witness :
    engagedChildren (0 : Nat)
        (modifyKeyRoute (some ("/a/b/".toList)) ("foo".toList) (mkRequest ("/a/b/a".toList))) =
      couldRouteTo (0 : Nat) (mkRequest ("/a/b/a".toList)) :=
  (couldRouteTo_route_consistency_amended (0 : Nat) (some ("/a/b/".toList)) ("foo".toList)
    (mkRequest ("/a/b/a".toList))).2.1 (by decide)

/-- C4: whenever the rewrite step of the node produces a key that fails
key-syntax validation, `route` returns the `InvalidKey` error reply as a
normal value from the node itself — the child target is not engaged on that
branch.  (Both rewrite branches are covered; no exception is involved: the
embedding is a total function.) -/
theorem modifyKeyRoute_invalid_key_error {α : Type} (target_ : α)
    (rpOpt : Option Str) (kp : Str) (req : McRequest) (err : Str) :
    (kp.isPrefixOf req.keyWithoutRoute = false →
      mc_client_req_key_check (effectiveRp rpOpt req ++ kp ++ req.keyWithoutRoute) = some err →
      modifyKeyRoute rpOpt kp req =
          RouteAction.errorReply ("ModifyKeyRoute: invalid key: ".toList ++ err) ∧
        engagedChildren target_ (modifyKeyRoute rpOpt kp req) = []) ∧
    (kp.isPrefixOf req.keyWithoutRoute = true →
      rpOpt.isSome = true ∧ effectiveRp rpOpt req ≠ req.routingPrefix →
      mc_client_req_key_check (effectiveRp rpOpt req ++ req.keyWithoutRoute) = some err →
      modifyKeyRoute rpOpt kp req =
          RouteAction.errorReply ("ModifyKeyRoute: invalid key: ".toList ++ err) ∧
        engagedChildren target_ (modifyKeyRoute rpOpt kp req) = []) := by
  constructor
  · intro h hv
    have hr : modifyKeyRoute rpOpt kp req =
        RouteAction.errorReply ("ModifyKeyRoute: invalid key: ".toList ++ err) := by
      simp only [modifyKeyRoute]
      rw [if_pos h]
      simp only [routeReqWithKey]
      rw [hv]
    exact ⟨hr, by rw [hr]; rfl⟩
  · intro h hs hv
    have hfalse : ¬ kp.isPrefixOf req.keyWithoutRoute = false := by simp [h]
    have hr : modifyKeyRoute rpOpt kp req =
        RouteAction.errorReply ("ModifyKeyRoute: invalid key: ".toList ++ err) := by
      simp only [modifyKeyRoute]
      rw [if_neg hfalse, if_pos hs]
      simp only [routeReqWithKey]
      rw [hv]
    exact ⟨hr, by rw [hr]; rfl⟩

/-- C4 witness: the first rewrite branch evaluated at the request with empty
routing prefix and unprefixed key `" "`, whose rewritten key `/a/b/foo `
contains a space. -/
theorem modifyKeyRoute_invalid_key_error_witness :
    modifyKeyRoute (some ("/a/b/".toList)) ("foo".toList) (McRequest.mk [] (" ".toList)) =
        RouteAction.errorReply
          ("ModifyKeyRoute: invalid key: ".toList ++ "invalid key characters".toList) ∧
      engagedChildren (1 : Nat)
        (modifyKeyRoute (some ("/a/b/".toList)) ("foo".toList) (McRequest.mk [] (" ".toList))) =
        [] :=
  (modifyKeyRoute_invalid_key_error (1 : Nat) (some ("/a/b/".toList)) ("foo".toList)
    (McRequest.mk [] (" ".toList)) ("invalid key characters".toList)).1 (by decide) (by decide)

/-- C3: the dispatcher converts every failure raised while handling an admin
command into a reply `ERROR: ` + failure message instead of propagating it:
a failing table command produces `ERROR: ` + its message, an unknown command
name produces exactly `ERROR: unknown command: ` + name, and an unknown
operation name for the `route` command produces exactly
`ERROR: route: unknown op ` + op.  (`handleRequest` is a total function, so
no failure escapes as a hard fault.) -/
theorem handleRequest_error_reply (commands : Str → Option (List Str → Except Str Str))
    (ops : List Str) (key cmd : Str) (args : List Str)
    (hp : parseAdminKey key = (cmd, args)) :
    (∀ f e, cmd ≠ "route".toList → commands cmd = some f → f args = Except.error e →
      handleRequest commands ops key = DispatchResult.reply ("ERROR: ".toList ++ e)) ∧
    (cmd ≠ "route".toList → commands cmd = none →
      handleRequest commands ops key =
        DispatchResult.reply ("ERROR: unknown command: ".toList ++ cmd)) ∧
    (∀ op k, cmd = "route".toList → args = [op, k] → op ∉ ops →
      handleRequest commands ops key =
        DispatchResult.reply ("ERROR: route: unknown op ".toList ++ op)) := by
  refine ⟨?_, ?_, ?_⟩
  · intro f e hne hsome herr
    simp only [handleRequest, hp]
    rw [if_neg hne, hsome]
    simp [herr]
  · intro hne hnone
    simp only [handleRequest, hp]
    rw [if_neg hne, hnone]
    simp
  · intro op k hroute hargs hmem
    simp only [handleRequest, hp]
    rw [if_pos hroute, hargs]
    simp only [handleRouteCommand]
    rw [routeCommandHelper_of_not_mem ops op k hmem]
    simp

/-- C3 witness: the three error conversions evaluated concretely against the
table `svcTableC3` holding only the always-failing command `boom`. -/
theorem handleRequest_error_reply_witness :
    handleRequest svcTableC3 ["get".toList] ("boom".toList) =
        DispatchResult.reply ("ERROR: kaboom".toList) ∧
      handleRequest svcTableC3 ["get".toList] ("nope".toList) =
        DispatchResult.reply ("ERROR: unknown command: nope".toList) ∧
      handleRequest svcTableC3 ["get".toList] ("route(zap,k)".toList) =
        DispatchResult.reply ("ERROR: route: unknown op zap".toList) := by
  refine ⟨?_, ?_, ?_⟩
  · have h := (handleRequest_error_reply svcTableC3 (["get".toList]) ("boom".toList)
      ("boom".toList) [] (by decide)).1 (fun _ => Except.error ("kaboom".toList))
      ("kaboom".toList) (by decide) (by rfl) (by rfl)
    exact h.trans (by decide)
  · exact (handleRequest_error_reply svcTableC3 (["get".toList]) ("nope".toList)
      ("nope".toList) [] (by decide)).2.1 (by decide) (by rfl)
  · exact (handleRequest_error_reply svcTableC3 (["get".toList]) ("route(zap,k)".toList)
      ("route".toList) [("zap".toList), ("k".toList)] (by decide)).2.2 ("zap".toList)
      ("k".toList) (by decide) (by decide) (by decide)

/-- C7: for every admin command dispatched through the synchronous command
table that succeeds, the dispatcher strips a trailing newline from the
result string before sending the reply, and otherwise sends the result
verbatim. -/
theorem handleRequest_strip_newline (commands : Str → Option (List Str → Except Str Str))
    (ops : List Str) (key cmd : Str) (args : List Str)
    (f : List Str → Except Str Str) (s : Str)
    (hp : parseAdminKey key = (cmd, args)) (hne : cmd ≠ "route".toList)
    (hsome : commands cmd = some f) (hok : f args = Except.ok s) :
    (s.getLast? = some '\n' →
      handleRequest commands ops key = DispatchResult.reply s.dropLast) ∧
    (s.getLast? ≠ some '\n' →
      handleRequest commands ops key = DispatchResult.reply s) := by
  have hrun : handleRequest commands ops key =
      DispatchResult.reply (stripTrailingNewline s) := by
    simp only [handleRequest, hp]
    rw [if_neg hne, hsome]
    simp [hok]
  constructor
  · intro hnl
    rw [hrun, stripTrailingNewline, if_pos hnl]
  · intro hnl
    rw [hrun, stripTrailingNewline, if_neg hnl]

/-- C7 witness: the command `ver` of `svcTableC7` succeeds with `1.0` plus a
trailing newline, and the reply is exactly `1.0`. -/
theorem handleRequest_strip_newline_witness :
    handleRequest svcTableC7 [] ("ver".toList) = DispatchResult.reply ("1.0".toList) := by
  have h := (handleRequest_strip_newline svcTableC7 [] ("ver".toList) ("ver".toList) []
    (fun _ => Except.ok ("1.0\n".toList)) ("1.0\n".toList) (by decide) (by decide)
    (by rfl) (by rfl)).1 (by decide)
  exact h.trans (by decide)

/-- C5 counterexample: the continuation inserts the CR LF separator only
when the accumulated string is nonempty, so with a first destination equal
to the empty string the reply is not the plain CR-LF join of the three
destination strings. -/
theorem joinDestinations_empty_first_cex :
    joinDestinations ["".toList, "Y".toList, "Z".toList] = "Y\r\nZ".toList ∧
    joinDestinations ["".toList, "Y".toList, "Z".toList] ≠
      "".toList ++ "\r\n".toList ++ "Y".toList ++ "\r\n".toList ++ "Z".toList := by
  decide

/-- C5 amended: provided the first reported destination string is nonempty
(destination identifiers are host:port strings), a recording walk of the
`route` command that reports destinations X, Y, Z in that call order yields
the reply body `X\r\nY\r\nZ`: the destinations joined by the two-character
CR LF separator in visitation order, with no leading or trailing
separator. -/
theorem joinDestinations_crlf (x y z : Str) (hx : x ≠ []) :
    joinDestinations [x, y, z] = x ++ "\r\n".toList ++ y ++ "\r\n".toList ++ z := by
  simp [joinDestinations, hx]

/-- C5 amended witness: destinations `X`, `Y`, `Z`. -/
theorem joinDestinations_crlf_witness :
    joinDestinations ["X".toList, "Y".toList, "Z".toList] = "X\r\nY\r\nZ".toList := by
  have h := joinDestinations_crlf ("X".toList) ("Y".toList) ("Z".toList) (by decide)
  exact h.trans (by decide)

/-- C6: for every routing tree and operation list, the `route_handles` dump
lists the node display names in depth-first pre-order — the root first, then
the full subtree of each child in order — with each line indented by exactly
one space per depth level and terminated by a newline; and when the
operation name does not resolve, the helper fails with the unknown-operation
error before any traversal, producing no partial dump. -/
theorem routeHandles_dump_preorder (ops : List Str) (op : Str) (tree : RTree) :
    (op ∈ ops → routeHandlesCommandHelper ops op tree = Except.ok (renderDump tree)) ∧
    (op ∉ ops → routeHandlesCommandHelper ops op tree =
      Except.error ("route_handles: unknown op ".toList ++ op)) := by
  constructor
  · intro h
    rw [routeHandlesCommandHelper_of_mem ops op tree h, dumpTree_renders]
    simp [renderDump]
  · intro h
    exact routeHandlesCommandHelper_of_not_mem ops op tree h

/-- C6 witness: a root with two children (the first with one grandchild)
dumps in pre-order with one space per level, and an unknown op fails. -/
theorem routeHandles_dump_preorder_witness :
    routeHandlesCommandHelper ["get".toList] ("get".toList)
        (RTree.node ("root".toList)
          [RTree.node ("a".toList) [RTree.node ("c".toList) []],
            RTree.node ("b".toList) []]) =
      Except.ok ("root\n a\n  c\n b\n".toList) ∧
    routeHandlesCommandHelper ["get".toList] ("set".toList) (RTree.node ("root".toList) []) =
      Except.error ("route_handles: unknown op set".toList) := by
  constructor
  · have h := (routeHandles_dump_preorder ["get".toList] ("get".toList)
      (RTree.node ("root".toList)
        [RTree.node ("a".toList) [RTree.node ("c".toList) []],
          RTree.node ("b".toList) []])).1 (by decide)
    exact h.trans (by decide)
  · have h := (routeHandles_dump_preorder ["get".toList] ("set".toList)
      (RTree.node ("root".toList) [])).2 (by decide)
    exact h.trans (by decide)

/-- C8 counterexample: the claim says both `route` and `route_handles` are
special-cased outside the synchronous command table and dispatched through
the background-task pipeline.  In the source, only `route` is: the
constructor places `route_handles` into `commands_` (its lookup succeeds),
and `handleRequest` answers a `route_handles` request with an immediate
synchronous reply — not a scheduled background task. -/
theorem routeHandles_sync_dispatch_cex :
    (serviceCommands (fun _ => none) ["get".toList] (RTree.node ("root".toList) [])
        ("route_handles".toList)).isSome = true ∧
    handleRequest
        (serviceCommands (fun _ => none) ["get".toList] (RTree.node ("root".toList) []))
        ["get".toList] ("route_handles(get,k)".toList) =
      DispatchResult.reply ("root".toList) := by
  decide

/-- C8 amended: only `route` is special-cased outside the synchronous
command table and dispatched through the background-task pipeline
(`scheduledRoute`); `route_handles` is an ordinary entry of the table whose
handler runs the recording dump synchronously, its reply flowing through the
normal table path (including the trailing-newline strip). -/
theorem route_dispatch_amended (ext : Str → Option (List Str → Except Str Str))
    (ops : List Str) (tree : RTree) (key : Str) (args : List Str) (op k : Str) :
    (parseAdminKey key = ("route".toList, args) → args = [op, k] → op ∈ ops →
      handleRequest (serviceCommands ext ops tree) ops key =
        DispatchResult.scheduledRoute op k) ∧
    serviceCommands ext ops tree ("route_handles".toList) =
      some (routeHandlesTableEntry ops tree) ∧
    (parseAdminKey key = ("route_handles".toList, args) → args = [op, k] → op ∈ ops →
      handleRequest (serviceCommands ext ops tree) ops key =
        DispatchResult.reply (stripTrailingNewline (dumpTree [] 0 tree))) := by
  have htable : serviceCommands ext ops tree ("route_handles".toList) =
      some (routeHandlesTableEntry ops tree) := by
    rw [serviceCommands, if_pos rfl]
  refine ⟨?_, htable, ?_⟩
  · intro hp hargs hmem
    simp only [handleRequest, hp]
    simp only [if_true]
    rw [hargs]
    simp only [handleRouteCommand]
    rw [routeCommandHelper_of_mem ops op k hmem]
  · intro hp hargs hmem
    simp only [handleRequest, hp]
    rw [if_neg (by decide), htable, hargs]
    simp only [routeHandlesTableEntry]
    rw [routeHandlesCommandHelper_of_mem ops op tree hmem]

/-- C8 amended witness: `route(get,k)` is scheduled on the background
pipeline while `route_handles(get,kk)` is answered synchronously from the
table. -/
theorem route_dispatch_amended_witness :
    handleRequest
        (serviceCommands (fun _ => none) ["get".toList] (RTree.node ("root".toList) []))
        ["get".toList] ("route(get,k)".toList) =
      DispatchResult.scheduledRoute ("get".toList) ("k".toList) ∧
    handleRequest
        (serviceCommands (fun _ => none) ["get".toList] (RTree.node ("root".toList) []))
        ["get".toList] ("route_handles(get,kk)".toList) =
      DispatchResult.reply
        (stripTrailingNewline (dumpTree [] 0 (RTree.node ("root".toList) []))) := by
  constructor
  · exact (route_dispatch_amended (fun _ => none) ["get".toList]
      (RTree.node ("root".toList) []) ("route(get,k)".toList)
      [("get".toList), ("k".toList)] ("get".toList) ("k".toList)).1
      (by decide) (by decide) (by decide)
  · exact (route_dispatch_amended (fun _ => none) ["get".toList]
      (RTree.node ("root".toList) []) ("route_handles(get,kk)".toList)
      [("get".toList), ("kk".toList)] ("get".toList) ("kk".toList)).2.2
      (by decide) (by decide) (by decide)

theorem parseAdminKey_no_paren (key : Str) (h : '(' ∉ key) :
    parseAdminKey key = (key, []) := by
  have hrest : key.dropWhile (fun c => c != '(') = [] := by
    rw [List.dropWhile_eq_nil_iff]
    intro x hx
    simp only [bne_iff_ne, ne_eq]
    intro hxeq
    exact h (hxeq ▸ hx)
  simp only [parseAdminKey, hrest]
  rw [if_neg]
  intro hc
  exact hc.1 rfl

theorem parseAdminKey_no_close (key : Str) (h : key.getLast? ≠ some ')') :
    parseAdminKey key = (key, []) := by
  simp only [parseAdminKey]
  rw [if_neg]
  intro hc
  exact h hc.2

theorem parseAdminKey_empty_args (name : Str) (h : '(' ∉ name) :
    parseAdminKey (name ++ "()".toList) = (name, []) := by
  have hall : ∀ c ∈ name, ((fun c => c != '(') c) = true := by
    intro c hc
    simp only [bne_iff_ne, ne_eq]
    intro he
    exact h (he ▸ hc)
  have hdw : (name ++ "()".toList).dropWhile (fun c => c != '(') = "()".toList := by
    rw [List.dropWhile_append_of_pos hall]
    decide
  have htw : (name ++ "()".toList).takeWhile (fun c => c != '(') = name := by
    rw [List.takeWhile_append_of_pos hall]
    have hemp : List.takeWhile (fun c => c != '(') ("()".toList) = [] := by decide
    rw [hemp, List.append_nil]
  have hlast : (name ++ "()".toList).getLast? = some ')' := by
    have hshape : name ++ "()".toList = (name ++ ['(']) ++ [')'] := by
      rw [List.append_assoc]
      rfl
    rw [hshape, List.getLast?_concat]
  simp only [parseAdminKey, hdw, htw, hlast]
  rw [if_pos ⟨by decide, trivial⟩]
  rfl

/-- C9: the dispatcher parses an admin key as name(args) only when the key
both contains a `(` and ends in `)`; otherwise the entire key — including
any unmatched `(` — becomes the command name with an empty argument list;
and a key of the form name() yields an empty argument list, so it parses,
and hence dispatches, identically to the bare key name. -/
theorem parseAdminKey_spec (key name : Str) :
    (¬ ('(' ∈ key ∧ key.getLast? = some ')') → parseAdminKey key = (key, [])) ∧
    ('(' ∉ name →
      parseAdminKey (name ++ "()".toList) = (name, []) ∧
        parseAdminKey name = (name, [])) ∧
    (∀ commands ops, '(' ∉ name →
      handleRequest commands ops (name ++ "()".toList) =
        handleRequest commands ops name) := by
  refine ⟨?_, ?_, ?_⟩
  · intro h
    by_cases hm : '(' ∈ key
    · exact parseAdminKey_no_close key (fun hl => h ⟨hm, hl⟩)
    · exact parseAdminKey_no_paren key hm
  · intro h
    exact ⟨parseAdminKey_empty_args name h, parseAdminKey_no_paren name h⟩
  · intro commands ops h
    simp only [handleRequest, parseAdminKey_empty_args name h, parseAdminKey_no_paren name h]

/-- C9 witness: an unmatched `(` leaves the whole key as command name;
`stats()` parses like bare `stats` and dispatches identically. -/
theorem parseAdminKey_spec_witness :
    parseAdminKey ("ab(c".toList) = ("ab(c".toList, []) ∧
    parseAdminKey ("stats()".toList) = ("stats".toList, []) ∧
    handleRequest (fun _ => none) [] ("stats()".toList) =
      handleRequest (fun _ => none) [] ("stats".toList) := by
  refine ⟨?_, ?_, ?_⟩
  · exact (parseAdminKey_spec ("ab(c".toList) []).1 (by decide)
  · have h := ((parseAdminKey_spec [] ("stats".toList)).2.1 (by decide)).1
    exact (by decide : ("stats()".toList : Str) = "stats".toList ++ "()".toList) ▸ h
  · have h := (parseAdminKey_spec [] ("stats".toList)).2.2 (fun _ => none) [] (by decide)
    exact (by decide : ("stats()".toList : Str) = "stats".toList ++ "()".toList) ▸ h

/-- C10 counterexample: the claim says every result string ending in two
newlines yields a reply ending in exactly one newline.  The result
`a\n\n\n` ends in two newlines, yet the stripped reply `a\n\n` still ends
in two newlines — the strip removes exactly one character, never more. -/
theorem stripTrailingNewline_two_newlines_cex :
    ("\n\n".toList.isSuffixOf ("a\n\n\n".toList)) = true ∧
    stripTrailingNewline ("a\n\n\n".toList) = "a\n\n".toList ∧
    ("\n\n".toList.isSuffixOf (stripTrailingNewline ("a\n\n\n".toList))) = true := by
  decide

/-- C10 amended: the strip removes exactly one trailing newline character:
for every result string ending in exactly two newlines the reply ends in
exactly one newline; in general a result ending in a newline loses exactly
that final character (reply + newline = result, so a result ending in CR LF
is stripped to end in CR), and a result not ending in a newline is sent
verbatim. -/
theorem stripTrailingNewline_amended (s t : Str) :
    (s = t ++ "\n\n".toList → t.getLast? ≠ some '\n' →
      stripTrailingNewline s = t ++ "\n".toList ∧
        (stripTrailingNewline s).getLast? = some '\n' ∧
        ("\n\n".toList.isSuffixOf (stripTrailingNewline s)) = false) ∧
    (s.getLast? = some '\n' → stripTrailingNewline s ++ "\n".toList = s) ∧
    (s.getLast? ≠ some '\n' → stripTrailingNewline s = s) ∧
    stripTrailingNewline (t ++ "\r\n".toList) = t ++ "\r".toList := by
  refine ⟨?_, ?_, ?_, ?_⟩
  · intro hs ht
    subst hs
    have hshape : t ++ "\n\n".toList = (t ++ ['\n']) ++ ['\n'] := by
      rw [List.append_assoc]
      rfl
    have hstrip : stripTrailingNewline (t ++ "\n\n".toList) = t ++ ['\n'] := by
      rw [stripTrailingNewline, hshape, if_pos (List.getLast?_concat _),
        List.dropLast_concat]
    refine ⟨hstrip, ?_, ?_⟩
    · rw [hstrip]
      exact List.getLast?_concat _
    · rw [hstrip, ← Bool.not_eq_true]
      intro htrue
      rw [List.isSuffixOf_iff_suffix] at htrue
      obtain ⟨u, hu⟩ := htrue
      have hu2 : (u ++ ['\n']) ++ ['\n'] = t ++ ['\n'] := by
        rw [List.append_assoc]
        exact hu
      have hut : u ++ ['\n'] = t := List.append_cancel_right hu2
      exact ht (hut ▸ List.getLast?_concat u)
  · intro h
    have hne : s ≠ [] := by
      intro he
      rw [he] at h
      cases h
    have hg := List.getLast?_eq_getLast s hne
    have hlast : s.getLast hne = '\n' := Option.some.inj (hg.symm.trans h)
    rw [stripTrailingNewline, if_pos h]
    have : s.dropLast ++ ['\n'] = s.dropLast ++ [s.getLast hne] := by rw [hlast]
    exact this.trans (List.dropLast_concat_getLast hne)
  · intro h
    rw [stripTrailingNewline, if_neg h]
  · have hshape : t ++ "\r\n".toList = (t ++ ['\r']) ++ ['\n'] := by
      rw [List.append_assoc]
      rfl
    rw [stripTrailingNewline, hshape, if_pos (List.getLast?_concat _), List.dropLast_concat]
    rfl

/-- C10 amended witness: the result `x\n\n` ends in exactly two newlines and
the reply `x\n` ends in exactly one. -/
theorem stripTrailingNewline_amended_witness :
    stripTrailingNewline ("x\n\n".toList) = "x".toList ++ "\n".toList ∧
      (stripTrailingNewline ("x\n\n".toList)).getLast? = some '\n' ∧
      ("\n\n".toList.isSuffixOf (stripTrailingNewline ("x\n\n".toList))) = false :=
  (stripTrailingNewline_amended ("x\n\n".toList) ("x".toList)).1 (by decide) (by decide)
